import Mathlib

/-!
The orca gateway: session proxy, address discovery and control channel

A shallow embedding of `backend/server/server.go` and `backend/server/websocket.go`.

* Go strings are Lean strings; the `strings` helpers the handlers call are
  written over the character list of the string.
* The registry `opencodeServers` (a Go `map[string]string`) is an association
  list with at most one pair per key.
* Calls that leave the process (the HTTP client, the spawned command, the
  websocket connection, the JSON decoder) are inputs of the model: every
  handler takes the outcomes of the calls it makes and returns what it wrote.
* A handler runs alone: the registry it is given is changed by nobody else
  while it runs.
* Time is not measured. The output of the spawned process is what the scanner
  delivers before the timer of `waitForServerURL` fires; the timer case of the
  `select` runs exactly when the scanning goroutine sends nothing.
* The scanner itself (`bufio.ScanLines` with the default token limit) is
  modelled over the text of stdout followed by stderr in `scanStream`.
-/

namespace Orca

/-! ## The `strings` helpers used by the handlers -/

/-- `strings.HasPrefix(s, pre)`. -/
def HasPrefix (s pre : String) : Bool :=
  pre.data.isPrefixOf s.data

/-- `strings.TrimPrefix(s, pre)`: `s` without the leading `pre`, or `s` itself. -/
def TrimPrefix (s pre : String) : String :=
  if HasPrefix s pre then ⟨s.data.drop pre.data.length⟩ else s

/-- Cut a character list at the first occurrence of `sep`. -/
def cutAt (sep : Char) : List Char → Option (List Char × List Char)
  | [] => none
  | c :: cs =>
    if c = sep then some ([], cs)
    else match cutAt sep cs with
      | none => none
      | some (a, b) => some (c :: a, b)

/-- The pieces of `strings.SplitN` over a character list. -/
def splitNChars (sep : Char) : Nat → List Char → List (List Char)
  | 0, _ => []
  | 1, s => [s]
  | n + 2, s =>
    match cutAt sep s with
    | none => [s]
    | some (a, b) => a :: splitNChars sep (n + 1) b

/-- `strings.SplitN(s, sep, n)` for a one-character separator and `n ≥ 0`:
at most `n` pieces, the last one holding the unsplit remainder. -/
def SplitN (s : String) (sep : Char) (n : Nat) : List String :=
  (splitNChars sep n s.data).map String.mk

/-! ## HTTP data -/

/-- `http.Header`: header names, in the canonical form in which the server
stores them, with their values. -/
abbrev Header := List (String × List String)

/-- `Header.Get(key)`: the first value stored under `key`, or the empty string. -/
def Header.Get (h : Header) (key : String) : String :=
  match h.lookup key with
  | some (v :: _) => v
  | _ => ""

/-- The fields of `*http.Request` the handlers read. -/
structure Request where
  Method : String
  Path : String
  RawQuery : String
  Header : Header
  Body : String
  deriving DecidableEq, Repr

/-- The request built by `http.NewRequest` and handed to `client.Do`. -/
structure OutRequest where
  Method : String
  URL : String
  Header : Header
  Body : String
  deriving DecidableEq, Repr

/-- What is written to the `http.ResponseWriter`. -/
structure Response where
  StatusCode : Nat
  Header : Header
  Body : String
  deriving DecidableEq, Repr

/-- `http.Error(w, msg, code)`. -/
def httpError (msg : String) (code : Nat) : Response :=
  { StatusCode := code
    Header := [("Content-Type", ["text/plain; charset=utf-8"]),
               ("X-Content-Type-Options", ["nosniff"])]
    Body := msg ++ "\n" }

def StatusBadRequest : Nat := 400
def StatusNotFound : Nat := 404
def StatusInternalServerError : Nat := 500
def StatusBadGateway : Nat := 502

/-- The HTTP client library as seen by a handler: whether `http.NewRequest`
accepts a method and address, and what `client.Do` answers (`none` is a
transport error). -/
structure HTTPClient where
  NewRequest : String → String → Bool
  Do : OutRequest → Option Response

/-- The outcome of one handler run: the request sent to a backend, if any, and
the response written to the caller. -/
structure Handled where
  sent : Option OutRequest
  response : Response
  deriving DecidableEq, Repr

/-- The session registry `Server.opencodeServers`. -/
abbrev Registry := List (String × String)

/-- The read `s.opencodeServers[sessionID]` (value and presence). -/
def Registry.get (reg : Registry) (sessionID : String) : Option String :=
  reg.lookup sessionID

/-- The statement `delete(s.opencodeServers, sessionID)`. -/
def Registry.delete (reg : Registry) (sessionID : String) : Registry :=
  reg.filter (fun kv => kv.1 != sessionID)

/-- The assignment `s.opencodeServers[sessionID] = serverURL`. -/
def Registry.set (reg : Registry) (sessionID serverURL : String) : Registry :=
  (sessionID, serverURL) :: reg.delete sessionID

/-! ## `handleAPIProxy` -/

/-- The tail of `handleAPIProxy` and of the development handler, from
`http.NewRequest` on: build the request with the caller's method, headers and
body, send it, and copy status, headers and body of the answer back. -/
def forward (c : HTTPClient) (r : Request) (proxyURL : String) : Handled :=
  if c.NewRequest r.Method proxyURL then
    let proxyReq : OutRequest :=
      { Method := r.Method, URL := proxyURL, Header := r.Header, Body := r.Body }
    match c.Do proxyReq with
    | none => { sent := some proxyReq, response := httpError "proxy error" StatusBadGateway }
    | some resp =>
      { sent := some proxyReq
        response := { StatusCode := resp.StatusCode, Header := resp.Header, Body := resp.Body } }
  else
    { sent := none, response := httpError "proxy error" StatusInternalServerError }

/-- `(*Server).handleAPIProxy`. -/
def handleAPIProxy (c : HTTPClient) (reg : Registry) (r : Request) : Handled :=
  match SplitN (TrimPrefix r.Path "/api/") '/' 2 with
  | [] => { sent := none, response := httpError "missing sessionID in path" StatusBadRequest }
  | sessionID :: more =>
    if sessionID = "" then
      { sent := none, response := httpError "missing sessionID in path" StatusBadRequest }
    else
      let apiPath := match more with
        | [] => ""
        | p :: _ => "/" ++ p
      match reg.get sessionID with
      | none => { sent := none, response := httpError "session not found" StatusNotFound }
      | some targetURL =>
        let proxyURL := targetURL ++ apiPath
        let proxyURL := if r.RawQuery ≠ "" then proxyURL ++ "?" ++ r.RawQuery else proxyURL
        forward c r proxyURL

/-! ## Address discovery: `waitForServerURL` -/

/-- `unicode.IsSpace`, the separator test of `strings.Fields` and
`strings.TrimSpace`. -/
def IsSpace (c : Char) : Bool :=
  let n := c.toNat
  (0x09 ≤ n && n ≤ 0x0d) || n == 0x20 || n == 0x85 || n == 0xa0 || n == 0x1680 ||
    (0x2000 ≤ n && n ≤ 0x200a) || n == 0x2028 || n == 0x2029 || n == 0x202f ||
    n == 0x205f || n == 0x3000

/-- The loop of `strings.Fields`: `cur` is the field being read. -/
def fieldsFrom : List Char → List Char → List (List Char)
  | cur, [] => if cur = [] then [] else [cur]
  | cur, c :: cs =>
    if IsSpace c then
      if cur = [] then fieldsFrom [] cs else cur :: fieldsFrom [] cs
    else fieldsFrom (cur ++ [c]) cs

/-- `strings.Fields(s)`: the maximal runs of non-space characters, in order. -/
def Fields (s : String) : List String :=
  (fieldsFrom [] s.data).map String.mk

/-- `strings.TrimSpace(s)`. -/
def TrimSpace (s : String) : String :=
  ⟨((s.data.dropWhile IsSpace).reverse.dropWhile IsSpace).reverse⟩

/-- Substring test over character lists. -/
def containsChars (sub : List Char) : List Char → Bool
  | [] => sub.isPrefixOf []
  | c :: cs => sub.isPrefixOf (c :: cs) || containsChars sub cs

/-- `strings.Contains(s, substr)`. -/
def Contains (s substr : String) : Bool :=
  containsChars substr.data s.data

/-- How the scan of the process output stops, as far as the waiting caller can
see: end of input, a scanner error (`scanner.Err()` non-nil: a failed read or a
line beyond the scanner's buffer), or nothing more delivered by the time the
timer fires. -/
inductive ScanEnd where
  | eof
  | failed (err : String)
  | pending
  deriving DecidableEq, Repr

/-- The run of `bufio.NewScanner(io.MultiReader(stdout, stderr))`: the lines
`scanner.Text()` yields, stdout first and then stderr, and how the scan stops. -/
structure Output where
  lines : List String
  ending : ScanEnd
  deriving DecidableEq, Repr

/-- The local type `result` of `waitForServerURL`. -/
structure result where
  url : String
  err : Option String
  deriving DecidableEq, Repr

/-- The test on a part of a line: it begins with `http://` or `https://`. -/
def hasScheme (part : String) : Bool :=
  HasPrefix part "http://" || HasPrefix part "https://"

/-- The inner loop over `parts`: the first part with a URL scheme is sent. -/
def scanParts : List String → Option result
  | [] => none
  | part :: parts =>
    if hasScheme part then some { url := TrimSpace part, err := none }
    else scanParts parts

/-- The goroutine of `waitForServerURL`: the value it sends on `ch`, if any. -/
def scanOutput : List String → ScanEnd → Option result
  | [], ScanEnd.failed err => some { url := "", err := some err }
  | [], _ => none
  | line :: lines, ending =>
    if Contains line "http://" || Contains line "https://" then
      match scanParts (Fields line) with
      | some res => some res
      | none => scanOutput lines ending
    else scanOutput lines ending

/-- The two cases of the `select` in `waitForServerURL`. -/
inductive Selected where
  | received (res : result)
  | timerFired
  deriving DecidableEq, Repr

/-- Which case of the `select` runs: the receive when the goroutine sends, the
timer otherwise. -/
def selectCase (out : Output) : Selected :=
  match scanOutput out.lines out.ending with
  | some res => Selected.received res
  | none => Selected.timerFired

/-- The error built by `fmt.Errorf` in the timer case. -/
def timeoutError : String := "timeout waiting for server URL"

/-- `waitForServerURL(stdout, stderr, timeout)`: the pair `(url, err)`. -/
def waitForServerURL (out : Output) : String × Option String :=
  match selectCase out with
  | Selected.received res => (res.url, res.err)
  | Selected.timerFired => ("", some timeoutError)

/-! ## The scanner over the process output -/

/-- `bufio.MaxScanTokenSize`, the token limit of a scanner made by
`bufio.NewScanner`. -/
def MaxScanTokenSize : Nat := 64 * 1024

/-- `bufio.ErrTooLong`. -/
def ErrTooLong : String := "bufio.Scanner: token too long"

/-- The length of a piece of text in bytes, as Go's `len` counts it. -/
def byteLen (data : List Char) : Nat :=
  (data.map Char.utf8Size).sum

/-- The text cut at every line feed: the pieces before each line feed, and
last the piece after the last one. -/
def splitLines : List Char → List (List Char)
  | [] => [[]]
  | c :: cs =>
    if c = '\n' then [] :: splitLines cs
    else match splitLines cs with
      | [] => [[c]]
      | l :: ls => (c :: l) :: ls

/-- `dropCR` of `bufio.ScanLines`: one trailing carriage return is dropped. -/
def dropCR (data : List Char) : List Char :=
  if data.getLast? = some '\r' then data.dropLast else data

/-- The scanner with the split function `bufio.ScanLines` over the pieces of
the text: a piece that reaches the token limit stops the scan with
`ErrTooLong`; a piece followed by a line feed is delivered without its line
end; the last piece is delivered, if not empty, once the input has ended (with
or without a read error), and not while the input is still open. -/
def scanPieces (closing : ScanEnd) : List (List Char) → List String × ScanEnd
  | [] => ([], closing)
  | [last] =>
    if MaxScanTokenSize ≤ byteLen last then ([], ScanEnd.failed ErrTooLong)
    else match closing with
      | ScanEnd.pending => ([], ScanEnd.pending)
      | _ => (if last = [] then [] else [String.mk (dropCR last)], closing)
  | piece :: next :: rest =>
    if MaxScanTokenSize ≤ byteLen piece then ([], ScanEnd.failed ErrTooLong)
    else (String.mk (dropCR piece) :: (scanPieces closing (next :: rest)).1,
          (scanPieces closing (next :: rest)).2)

/-- The run of `bufio.NewScanner(io.MultiReader(stdout, stderr))` over the text
the process writes before the timer fires, stdout first and then stderr;
`closing` is how that text ends: end of input, a failed read, or still open
when the timer fires. -/
def scanStream (stdout stderr : String) (closing : ScanEnd) : Output :=
  let run := scanPieces closing (splitLines (stdout.data ++ stderr.data))
  { lines := run.1, ending := run.2 }

/-! ## Bootstrap: `getAgentsFromAPI` -/

/-- The outcome of a call that returns a Go `error` next to its value. -/
inductive Call (α : Type) where
  | err (msg : String)
  | ok (val : α)
  deriving DecidableEq, Repr

/-- The type `Agent`. -/
structure Agent where
  Name : String
  Description : String
  Mode : String
  BuiltIn : Bool
  deriving DecidableEq, Repr

/-- The `disable` flags of the anonymous `configResponse` struct decoded in
`getAgentsFromAPI`. -/
structure AgentConfig where
  General : Bool
  Plan : Bool
  Build : Bool
  deriving DecidableEq, Repr

/-- An answered `client.Get`: the status code and what the JSON decoder makes
of the body. -/
structure Got (α : Type) where
  StatusCode : Nat
  decoded : Call α
  deriving DecidableEq, Repr

def StatusOK : Nat := 200

/-- `getAgentsFromAPI(serverURL)`, given the outcome of `GET /agent` and of the
`GET /config` that follows it: the triple `(agents, currentAgent, err)`. -/
def getAgentsFromAPI (agent : Call (Got (List Agent))) (config : Call (Got AgentConfig)) :
    List Agent × String × Option String :=
  match agent with
  | Call.err e => ([], "", some ("failed to get agents: " ++ e))
  | Call.ok resp =>
    if resp.StatusCode ≠ StatusOK then
      ([], "", some ("unexpected status code: " ++ toString resp.StatusCode))
    else
      match resp.decoded with
      | Call.err e => ([], "", some ("failed to decode agents: " ++ e))
      | Call.ok agentsResponse =>
        match config with
        | Call.err e => (agentsResponse, "", some ("failed to get config: " ++ e))
        | Call.ok configResp =>
          let fallback : List Agent × String × Option String :=
            match agentsResponse with
            | first :: _ => (agentsResponse, first.Name, none)
            | [] => (agentsResponse, "", none)
          match configResp.decoded with
          | Call.ok configResponse =>
            if !configResponse.General then (agentsResponse, "general", none)
            else if !configResponse.Plan then (agentsResponse, "plan", none)
            else if !configResponse.Build then (agentsResponse, "build", none)
            else fallback
          | Call.err _ => fallback

/-! ## The control channel: `handleWebSocket` and `handleOpenCodeSession` -/

/-- The type `SelectDirectoryData`. -/
structure SelectDirectoryData where
  Path : String
  deriving DecidableEq, Repr

/-- The type `Message` as read from the client. `Data` is a `json.RawMessage`;
it is kept as what `json.Unmarshal(msg.Data, &data)` makes of it. The field
`Type` of the source is `Typ` here. -/
structure Message where
  Typ : String
  Data : Call SelectDirectoryData
  deriving DecidableEq, Repr

/-- One read on the connection: a failure of the connection (close, transport
error), or a frame, whose payload either decodes as a `Message` or does not. -/
inductive Frame where
  | failure (err : String)
  | payload (decoded : Option Message)
  deriving DecidableEq, Repr

/-- `conn.ReadJSON(&msg)` on the next frame. -/
def ReadJSON : Frame → Call Message
  | Frame.failure e => Call.err e
  | Frame.payload none => Call.err "invalid JSON"
  | Frame.payload (some msg) => Call.ok msg

/-- The type `DirectoryInfo`. -/
structure DirectoryInfo where
  Name : String
  Path : String
  deriving DecidableEq, Repr

/-- The type `ServerInfo`. -/
structure ServerInfo where
  URL : String
  Directory : String
  ShareURL : String
  SessionID : String
  CurrentModel : String
  CurrentAgent : String
  Models : List String
  Agents : List Agent
  deriving DecidableEq, Repr

/-- A message written to the client, by its type tag. -/
inductive Sent where
  | directoryList (directories : List DirectoryInfo)
  | serverReady (info : ServerInfo)
  deriving DecidableEq, Repr

/-- What a handler does to the world, in order. -/
inductive Effect where
  | start (dir : String)
  | cancel
  | wait
  | sleep (seconds : Nat)
  | probe (url : String)
  | set (sessionID serverURL : String)
  | delete (sessionID : String)
  | send (msg : Sent)
  | close
  deriving DecidableEq, Repr

/-- The outcomes of the calls `handleOpenCodeSession` makes, in source order. -/
structure Backend where
  StdoutPipe : Bool
  StderrPipe : Bool
  Start : Bool
  output : Output
  getModelsList : Call (List String)
  getCurrentModelFromAPI : Call String
  agent : Call (Got (List Agent))
  config : Call (Got AgentConfig)
  SessionNew : Call String
  SessionShare : Call String
  shareReachable : Nat → Bool
  Marshal : Bool
  WriteJSON : Bool

/-- The result of a handler run: the registry it leaves, what it did, the
session id it obtained from the backend (if it got that far), and the frames
it never read. -/
structure Run where
  registry : Registry
  effects : List Effect
  sessionID : Option String
  unread : List Frame
  deriving DecidableEq, Repr

/-- The reachability loop on the share URL: attempt `i` of `maxRetries`. -/
def probeShare (reachable : Nat → Bool) (shareURL : String) (maxRetries : Nat) :
    Nat → Nat → List Effect
  | 0, _ => []
  | n + 1, i =>
    if reachable i then [Effect.probe shareURL]
    else if i < maxRetries - 1 then
      Effect.probe shareURL :: Effect.sleep 1 :: probeShare reachable shareURL maxRetries n (i + 1)
    else Effect.probe shareURL :: probeShare reachable shareURL maxRetries n (i + 1)

/-- The final loop of `handleOpenCodeSession`: read and drop messages until a
read fails; returns the frames left unread. -/
def drain : List Frame → List Frame
  | [] => []
  | f :: rest =>
    match ReadJSON f with
    | Call.err _ => rest
    | Call.ok _ => drain rest

/-- The end of `handleOpenCodeSession`, after the registry write: marshal
`serverInfo`, send `serverReady`, then read and drop messages. Returns what was
sent and the frames left unread. -/
def announce (b : Backend) (inbound : List Frame) (info : ServerInfo) :
    List Effect × List Frame :=
  if !b.Marshal then ([], inbound)
  else if !b.WriteJSON then ([], inbound)
  else ([Effect.send (Sent.serverReady info)], drain inbound)

/-- `handleOpenCodeSession` from the registry write on, the deferred `delete`
included. -/
def registered (b : Backend) (inbound : List Frame) (reg : Registry)
    (info : ServerInfo) : Run :=
  let reg := reg.set info.SessionID info.URL
  let body := announce b inbound info
  { registry := reg.delete info.SessionID
    effects := Effect.set info.SessionID info.URL :: body.1 ++ [Effect.delete info.SessionID]
    sessionID := some info.SessionID
    unread := body.2 }

/-- The value `serverInfo` built by `handleOpenCodeSession` from the answers of
`getModelsList`, `getCurrentModelFromAPI` and `getAgentsFromAPI`. -/
def serverInfo (b : Backend) (dir serverURL sessionID shareURL : String) : ServerInfo :=
  let models : List String :=
    match b.getModelsList with
    | Call.ok ms => ms
    | Call.err _ => []
  let currentModel : String :=
    match b.getCurrentModelFromAPI with
    | Call.ok m => m
    | Call.err _ =>
      match models with
      | m :: _ => m
      | [] => ""
  let fetched := getAgentsFromAPI b.agent b.config
  { URL := serverURL, Directory := dir, ShareURL := shareURL, SessionID := sessionID
    CurrentModel := currentModel, CurrentAgent := fetched.2.1
    Models := models, Agents := fetched.1 }

/-- `handleOpenCodeSession` after `cmd.Start()` succeeded, up to its return;
the deferred `cancel(); cmd.Wait()` is added by the caller. -/
def started (b : Backend) (inbound : List Frame) (reg : Registry) (dir : String) : Run :=
  match waitForServerURL b.output with
  | (_, some _) => { registry := reg, effects := [], sessionID := none, unread := inbound }
  | (serverURL, none) =>
    match b.SessionNew with
    | Call.err _ => { registry := reg, effects := [], sessionID := none, unread := inbound }
    | Call.ok sessionID =>
      match b.SessionShare with
      | Call.err _ =>
        { registry := reg, effects := [], sessionID := some sessionID, unread := inbound }
      | Call.ok shareURL =>
        let probes := Effect.sleep 2 :: probeShare b.shareReachable shareURL 5 5 0
        let r := registered b inbound reg (serverInfo b dir serverURL sessionID shareURL)
        { r with effects := probes ++ r.effects }

/-- `(*Server).handleOpenCodeSession(conn, dir)`; `inbound` is what the
connection still has to deliver. -/
def handleOpenCodeSession (b : Backend) (inbound : List Frame) (reg : Registry)
    (dir : String) : Run :=
  if !b.StdoutPipe then
    { registry := reg, effects := [Effect.cancel], sessionID := none, unread := inbound }
  else if !b.StderrPipe then
    { registry := reg, effects := [Effect.cancel], sessionID := none, unread := inbound }
  else if !b.Start then
    { registry := reg, effects := [Effect.cancel], sessionID := none, unread := inbound }
  else
    let r := started b inbound reg dir
    { r with effects := Effect.start dir :: r.effects ++
        [Effect.cancel, Effect.wait, Effect.cancel] }

/-- The read loop of `handleWebSocket`. -/
def awaitSelection (b : Backend) (reg : Registry) : List Frame → Run
  | [] => { registry := reg, effects := [], sessionID := none, unread := [] }
  | f :: rest =>
    match ReadJSON f with
    | Call.err _ => { registry := reg, effects := [], sessionID := none, unread := rest }
    | Call.ok msg =>
      if msg.Typ = "selectDirectory" then
        match msg.Data with
        | Call.err _ => awaitSelection b reg rest
        | Call.ok data => handleOpenCodeSession b rest reg data.Path
      else awaitSelection b reg rest

/-- The outcomes of the calls `handleWebSocket` makes before its loop, and
the frames the client sends. -/
structure Conn where
  Upgrade : Bool
  sendDirectoryList : Call (List DirectoryInfo)
  inbound : List Frame

/-- `(*Server).handleWebSocket`. -/
def handleWebSocket (b : Backend) (conn : Conn) (reg : Registry) : Run :=
  if !conn.Upgrade then
    { registry := reg, effects := [], sessionID := none, unread := conn.inbound }
  else
    match conn.sendDirectoryList with
    | Call.err _ =>
      { registry := reg, effects := [Effect.close], sessionID := none, unread := conn.inbound }
    | Call.ok directories =>
      let r := awaitSelection b reg conn.inbound
      { r with effects := Effect.send (Sent.directoryList directories) :: r.effects ++
          [Effect.close] }

/-! ## The development passthrough: `handleDevProxy` -/

/-- The fields of `url.URL` the development handler sets. -/
structure URL where
  Scheme : String
  Host : String
  Path : String
  RawQuery : String
  deriving DecidableEq, Repr

/-- The outcomes of the calls `proxyWebSocket` makes, in source order. -/
structure Tunnel where
  Hijacker : Bool
  Dial : Bool
  Write : Bool
  Hijack : Bool
  ReadResponse : Bool
  WriteResponse : Bool
  deriving DecidableEq, Repr

/-- How `proxyWebSocket` ends: an error written to the client, a silent close
after the connection was taken over, or the two copy loops. -/
inductive Tunnelled where
  | refused (response : Response)
  | dropped
  | relayed
  deriving DecidableEq, Repr

/-- `(*Server).proxyWebSocket`. -/
def proxyWebSocket (t : Tunnel) : Tunnelled :=
  if !t.Hijacker then
    Tunnelled.refused (httpError "webserver doesn't support hijacking" StatusInternalServerError)
  else if !t.Dial then
    Tunnelled.refused (httpError "failed to connect to backend" StatusBadGateway)
  else if !t.Write then
    Tunnelled.refused (httpError "failed to write request" StatusInternalServerError)
  else if !t.Hijack then
    Tunnelled.refused (httpError "failed to hijack connection" StatusInternalServerError)
  else if !t.ReadResponse then Tunnelled.dropped
  else if !t.WriteResponse then Tunnelled.dropped
  else Tunnelled.relayed

/-- The two ways a request leaves `handleDevProxy`. -/
inductive DevHandled where
  | tunnel (t : Tunnelled)
  | buffered (h : Handled)
  deriving DecidableEq, Repr

/-- The handler returned by `(*Server).handleDevProxy(frontendURL)`; `render`
is `(*url.URL).String`. -/
def handleDevProxy (c : HTTPClient) (t : Tunnel) (render : URL → String) (target : URL)
    (r : Request) : DevHandled :=
  if r.Header.Get "Upgrade" = "websocket" then
    DevHandled.tunnel (proxyWebSocket t)
  else
    let proxyURL : URL := { target with Path := r.Path, RawQuery := r.RawQuery }
    DevHandled.buffered (forward c r (render proxyURL))

/-! ## Sample inputs -/

/-- A client library that accepts every request and a backend that answers
`200 ok`. -/
def sampleClient : HTTPClient :=
  { NewRequest := fun _ _ => true
    Do := fun _ => some { StatusCode := 200, Header := [], Body := "ok" } }

/-- The registry of the end-to-end scenario. -/
def sampleRegistry : Registry := [("ses_123", "http://127.0.0.1:53211")]

/-- The claim's words for the result of discovery: the first
whitespace-separated token, in stream order, that begins with `http://` or
`https://`. -/
def firstAddressToken (lines : List String) : Option String :=
  ((lines.map Fields).flatten).find? hasScheme

/-- Two lines without an address, the announcement, and later output. -/
def sampleLines : List String :=
  ["starting opencode", "docs:http://example.invalid",
   "opencode server listening on http://127.0.0.1:53211", "see https://later.invalid"]

/-- The claim's words for the toggles: the first of general, plan, build that
is not disabled. -/
def firstEnabledToggle (cfg : AgentConfig) : Option String :=
  if !cfg.General then some "general"
  else if !cfg.Plan then some "plan"
  else if !cfg.Build then some "build"
  else none

/-- The claim's words for the fallback: the name of the first agent in the
fetched list, or the empty string. -/
def firstAgentName (agents : List Agent) : String :=
  match agents with
  | first :: _ => first.Name
  | [] => ""

/-- The number of backend processes started in a list of effects. -/
def launches (effects : List Effect) : Nat :=
  (effects.filter fun e => match e with
    | Effect.start _ => true
    | _ => false).length

/-- A frame that leaves a channel awaiting selection where it is: an envelope
of another type, or a `selectDirectory` whose data does not decode. -/
def Frame.passedOver : Frame → Bool
  | Frame.payload (some msg) =>
    match msg.Data with
    | Call.err _ => true
    | Call.ok _ => msg.Typ ≠ "selectDirectory"
  | _ => false

/-- One custom agent, as `GET /agent` returns it. -/
def customAgent : Agent :=
  { Name := "custom", Description := "", Mode := "primary", BuiltIn := false }

/-- The backend of the end-to-end scenario: it announces
`http://127.0.0.1:53211`, creates session `ses_123` and shares it; the
second `GET /config` of the bootstrap fails. -/
def sampleBackend : Backend where
  StdoutPipe := true
  StderrPipe := true
  Start := true
  output := { lines := sampleLines, ending := ScanEnd.pending }
  getModelsList := Call.ok ["anthropic/model-a"]
  getCurrentModelFromAPI := Call.ok "anthropic/model-a"
  agent := Call.ok { StatusCode := 200, decoded := Call.ok [customAgent] }
  config := Call.err "connection refused"
  SessionNew := Call.ok "ses_123"
  SessionShare := Call.ok "https://share.invalid/ses_123"
  shareReachable := fun _ => true
  Marshal := true
  WriteJSON := true

/-- A backend whose process exits at once without writing an address line. -/
def silentBackend : Backend :=
  { sampleBackend with output := { lines := [], ending := ScanEnd.eof } }

/-- A `selectDirectory` message for `/home/u/proj`. -/
def selectProj : Frame :=
  Frame.payload (some { Typ := "selectDirectory", Data := Call.ok { Path := "/home/u/proj" } })

/-- A connection that was upgraded, received an empty directory list, and
then delivers `inbound`. -/
def sampleConn (inbound : List Frame) : Conn :=
  { Upgrade := true, sendDirectoryList := Call.ok [], inbound := inbound }

/-- A tunnel whose every step succeeds. -/
def sampleTunnel : Tunnel :=
  { Hijacker := true, Dial := true, Write := true, Hijack := true, ReadResponse := true
    WriteResponse := true }

/-- The development upstream. -/
def sampleTarget : URL :=
  { Scheme := "http", Host := "localhost:5173", Path := "", RawQuery := "" }

/-- A rendering of a URL as scheme, host, path and query. -/
def sampleRender (u : URL) : String :=
  u.Scheme ++ "://" ++ u.Host ++ u.Path ++ (if u.RawQuery = "" then "" else "?" ++ u.RawQuery)

/-- A character of a hexadecimal number. -/
def isHex (c : Char) : Bool :=
  c.isDigit || (0x61 ≤ c.toNat && c.toNat ≤ 0x66) || (0x41 ≤ c.toNat && c.toNat ≤ 0x46)

/-- Every `%` of an address is followed by two hexadecimal characters, one of
the checks of `url.Parse` inside `http.NewRequest`. -/
def validEscapes : List Char → Bool
  | [] => true
  | c :: rest =>
    if c = '%' then
      match rest with
      | a :: b :: more => isHex a && isHex b && validEscapes more
      | _ => false
    else validEscapes rest

/-- A client library that rejects an address with an invalid escape, as
`http.NewRequest` does, and a backend that answers `200 ok`. -/
def strictClient : HTTPClient :=
  { NewRequest := fun _ url => validEscapes url.data
    Do := fun _ => some { StatusCode := 200, Header := [], Body := "ok" } }

/-- The lines of a text, each followed by a line feed. -/
def withNewlines : List String → String
  | [] => ""
  | l :: ls => l ++ "\n" ++ withNewlines ls

/-- A line of 65536 characters `x`, without an address. -/
def longLine : String :=
  String.mk (List.replicate 65536 (Char.ofNat 120))

/-- The announcement of the backend. -/
def announcement : String := "opencode server listening on http://127.0.0.1:53211"

/-- An output of two lines: the long line without an address, then the
announcement. -/
def overlongStream : String :=
  withNewlines [longLine, announcement]

/-! ## Facts about the string helpers -/

theorem cutAt_append (sep : Char) (a b : List Char) (h : sep ∉ a) :
    cutAt sep (a ++ sep :: b) = some (a, b) := by
  induction a with
  | nil => simp [cutAt]
  | cons x xs ih =>
    have hx : x ≠ sep := fun e => h (by simp [e])
    have hxs : sep ∉ xs := fun e => h (by simp [e])
    simp [cutAt, hx, ih hxs]

theorem cutAt_none (sep : Char) (a : List Char) (h : sep ∉ a) : cutAt sep a = none := by
  induction a with
  | nil => simp [cutAt]
  | cons x xs ih =>
    have hx : x ≠ sep := fun e => h (by simp [e])
    have hxs : sep ∉ xs := fun e => h (by simp [e])
    simp [cutAt, hx, ih hxs]

theorem TrimPrefix_append (pre s : String) : TrimPrefix (pre ++ s) pre = s := by
  have h : HasPrefix (pre ++ s) pre = true := by
    simp [HasPrefix, String.data_append]
  simp [TrimPrefix, h, String.data_append]

theorem SplitN_two_cut (sid rest : String) (h : '/' ∉ sid.data) :
    SplitN (sid ++ "/" ++ rest) '/' 2 = [sid, rest] := by
  have hd : (sid ++ "/" ++ rest).data = sid.data ++ '/' :: rest.data := by
    simp [String.data_append]
  simp [SplitN, splitNChars, hd, cutAt_append _ _ _ h]

theorem SplitN_two_whole (sid : String) (h : '/' ∉ sid.data) :
    SplitN sid '/' 2 = [sid] := by
  simp [SplitN, splitNChars, cutAt_none _ _ h]


/-! ## `handleAPIProxy` -/

/-- The address `handleAPIProxy` builds for a registered session. -/
theorem proxyURL_eq (backendAddress rest q : String) :
    (if q ≠ "" then backendAddress ++ ("/" ++ rest) ++ "?" ++ q
      else backendAddress ++ ("/" ++ rest)) =
    backendAddress ++ "/" ++ rest ++ (if q = "" then "" else "?" ++ q) := by
  by_cases h : q = ""
  · simp [h, String.append_assoc]
  · simp [h, String.append_assoc]

/-- Whatever `forward` sends carries the caller's method and the address it
was given. -/
theorem forward_sent (c : HTTPClient) (r : Request) (u : String) (q : OutRequest)
    (hq : (forward c r u).sent = some q) : q.Method = r.Method ∧ q.URL = u := by
  unfold forward at hq
  by_cases hn : c.NewRequest r.Method u = true
  · rw [if_pos hn] at hq
    cases hd : c.Do { Method := r.Method, URL := u, Header := r.Header, Body := r.Body } <;>
      (simp only [hd] at hq; cases hq; exact ⟨rfl, rfl⟩)
  · rw [if_neg hn] at hq
    cases hq

/-- When the client library accepts the request, `forward` sends it. -/
theorem forward_accepted (c : HTTPClient) (r : Request) (u : String)
    (hn : c.NewRequest r.Method u = true) :
    (forward c r u).sent =
      some { Method := r.Method, URL := u, Header := r.Header, Body := r.Body } := by
  unfold forward
  rw [if_pos hn]
  cases hd : c.Do { Method := r.Method, URL := u, Header := r.Header, Body := r.Body } <;>
    simp only [hd]

/-- When the client library rejects the request, `forward` answers 500 and
sends nothing. -/
theorem forward_rejected (c : HTTPClient) (r : Request) (u : String)
    (hn : c.NewRequest r.Method u = false) :
    forward c r u =
      { sent := none, response := httpError "proxy error" StatusInternalServerError } := by
  unfold forward
  rw [if_neg (by rw [hn]; decide)]

/-- C1, as stated, fails: with `ab` registered and `a` not, the path
`/api/ab/x` is `/api/` followed by the unregistered id `a` and the tail `b/x`,
and the request is forwarded to the backend of `ab` and answered with 200. -/
theorem handleAPIProxy_unregistered_prefix_forwarded :
    "/api/ab/x" = "/api/" ++ "a" ++ "b/x" ∧ "a" ≠ "" ∧ '/' ∉ "a".data ∧
    Registry.get [("ab", "http://127.0.0.1:53211")] "a" = none ∧
    handleAPIProxy sampleClient [("ab", "http://127.0.0.1:53211")]
        { Method := "GET", Path := "/api/ab/x", RawQuery := "", Header := [], Body := "" } =
      { sent := some { Method := "GET", URL := "http://127.0.0.1:53211/x", Header := [],
                       Body := "" }
        response := { StatusCode := 200, Header := [], Body := "ok" } } := by
  decide

/-- C1 (amended): when the path is `/api/` followed by a non-empty id without
`/` that is not a key of the registry, and then either nothing or a tail that
begins with `/`, the answer is 404 `session not found` and no request is sent
to any backend. -/
theorem handleAPIProxy_unknown_session (c : HTTPClient) (reg : Registry) (r : Request)
    (sid tail : String) (hpath : r.Path = "/api/" ++ sid ++ tail) (hne : sid ≠ "")
    (hslash : '/' ∉ sid.data) (hreg : reg.get sid = none)
    (htail : tail = "" ∨ ∃ rest, tail = "/" ++ rest) :
    handleAPIProxy c reg r =
      { sent := none, response := httpError "session not found" StatusNotFound } ∧
    (handleAPIProxy c reg r).response.StatusCode = 404 := by
  have key : handleAPIProxy c reg r =
      { sent := none, response := httpError "session not found" StatusNotFound } := by
    rcases htail with h | ⟨rest, h⟩
    · subst h
      have hp : r.Path = "/api/" ++ sid := by simpa using hpath
      simp [handleAPIProxy, hp, TrimPrefix_append, SplitN_two_whole sid hslash, hne, hreg]
    · subst h
      have hp : r.Path = "/api/" ++ (sid ++ "/" ++ rest) := by
        simp [hpath, String.append_assoc]
      simp [handleAPIProxy, hp, TrimPrefix_append, SplitN_two_cut sid rest hslash, hne, hreg]
  exact ⟨key, by rw [key]; rfl⟩

/-- C1 (amended), at `/api/ses_999/messages` with only `ses_123` registered. -/
theorem handleAPIProxy_unknown_session_witness :
    handleAPIProxy sampleClient sampleRegistry
        { Method := "GET", Path := "/api/ses_999/messages", RawQuery := "", Header := [],
          Body := "" } =
      { sent := none, response := httpError "session not found" StatusNotFound } ∧
    (handleAPIProxy sampleClient sampleRegistry
        { Method := "GET", Path := "/api/ses_999/messages", RawQuery := "", Header := [],
          Body := "" }).response.StatusCode = 404 :=
  handleAPIProxy_unknown_session sampleClient sampleRegistry _ "ses_999" "/messages"
    (by decide) (by decide) (by decide) (by decide) (Or.inr ⟨"messages", by decide⟩)

/-- C2, as stated, fails: `ses_123` is registered and the path is
`/api/ses_123/100%`, yet the client library rejects the address
`http://127.0.0.1:53211/100%` for its invalid escape, and the handler answers
500 with nothing forwarded. -/
theorem handleAPIProxy_rejected_address_not_forwarded :
    "/api/ses_123/100%" = "/api/" ++ "ses_123" ++ "/" ++ "100%" ∧ "ses_123" ≠ "" ∧
    '/' ∉ "ses_123".data ∧
    Registry.get sampleRegistry "ses_123" = some "http://127.0.0.1:53211" ∧
    handleAPIProxy strictClient sampleRegistry
        { Method := "GET", Path := "/api/ses_123/100%", RawQuery := "", Header := [],
          Body := "" } =
      { sent := none, response := httpError "proxy error" StatusInternalServerError } ∧
    (handleAPIProxy strictClient sampleRegistry
        { Method := "GET", Path := "/api/ses_123/100%", RawQuery := "", Header := [],
          Body := "" }).response.StatusCode = 500 := by
  decide

/-- C2 (amended): for a non-empty id without `/` that the registry maps to
`backendAddress`, a request for `/api/` + id + `/` + rest with raw query `q` is
handed to the forwarding step with the caller's method and the address
`backendAddress + "/" + rest`, followed by `?` + `q` exactly when `q` is not
empty; every request sent carries that method and address; when the client
library accepts them the request is sent, and when it rejects them the answer
is 500 and nothing is sent. -/
theorem handleAPIProxy_forwards (c : HTTPClient) (reg : Registry) (r : Request)
    (sid backendAddress rest : String) (hpath : r.Path = "/api/" ++ sid ++ "/" ++ rest)
    (hne : sid ≠ "") (hslash : '/' ∉ sid.data) (hreg : reg.get sid = some backendAddress) :
    handleAPIProxy c reg r =
      forward c r (backendAddress ++ "/" ++ rest ++
        (if r.RawQuery = "" then "" else "?" ++ r.RawQuery)) ∧
    (∀ q, (handleAPIProxy c reg r).sent = some q →
      q.Method = r.Method ∧
      q.URL = backendAddress ++ "/" ++ rest ++
        (if r.RawQuery = "" then "" else "?" ++ r.RawQuery)) ∧
    (c.NewRequest r.Method (backendAddress ++ "/" ++ rest ++
        (if r.RawQuery = "" then "" else "?" ++ r.RawQuery)) = true →
      (handleAPIProxy c reg r).sent =
        some { Method := r.Method
               URL := backendAddress ++ "/" ++ rest ++
                 (if r.RawQuery = "" then "" else "?" ++ r.RawQuery)
               Header := r.Header, Body := r.Body }) ∧
    (c.NewRequest r.Method (backendAddress ++ "/" ++ rest ++
        (if r.RawQuery = "" then "" else "?" ++ r.RawQuery)) = false →
      handleAPIProxy c reg r =
        { sent := none, response := httpError "proxy error" StatusInternalServerError }) := by
  have hp : r.Path = "/api/" ++ (sid ++ "/" ++ rest) := by
    simp [hpath, String.append_assoc]
  have key : handleAPIProxy c reg r =
      forward c r (backendAddress ++ "/" ++ rest ++
        (if r.RawQuery = "" then "" else "?" ++ r.RawQuery)) := by
    rw [← proxyURL_eq]
    simp [handleAPIProxy, hp, TrimPrefix_append, SplitN_two_cut sid rest hslash, hne, hreg]
  rw [key]
  exact ⟨rfl, fun q hq => forward_sent c r _ q hq, fun hok => forward_accepted c r _ hok,
    fun hno => forward_rejected c r _ hno⟩

/-- C2 on the end-to-end scenario: `GET /api/ses_123/messages` goes to
`http://127.0.0.1:53211/messages`. -/
theorem handleAPIProxy_forwards_witness :
    (handleAPIProxy sampleClient sampleRegistry
        { Method := "GET", Path := "/api/ses_123/messages", RawQuery := "", Header := [],
          Body := "" }).sent =
      some { Method := "GET", URL := "http://127.0.0.1:53211/messages", Header := [],
             Body := "" } :=
  (handleAPIProxy_forwards sampleClient sampleRegistry
    { Method := "GET", Path := "/api/ses_123/messages", RawQuery := "", Header := [],
      Body := "" } "ses_123" "http://127.0.0.1:53211" "messages"
    (by decide) (by decide) (by decide) (by decide)).2.2.1 (by decide)

/-! ## The registry -/
theorem Registry.get_delete_self (reg : Registry) (k : String) : (reg.delete k).get k = none := by
  induction reg with
  | nil => rfl
  | cons kv rest ih =>
    obtain ⟨a, v⟩ := kv
    simp only [Registry.delete, Registry.get] at ih ⊢
    by_cases h : a = k
    · subst h
      simpa [List.filter_cons] using ih
    · have h2 : (k == a) = false := by simpa using fun e => h e.symm
      have h3 : (a != k) = true := by simpa using h
      simp only [List.filter_cons, h3, if_true, List.lookup_cons, h2, ih]

theorem Registry.delete_absent (reg : Registry) (k : String) (h : reg.get k = none) :
    reg.delete k = reg := by
  induction reg with
  | nil => rfl
  | cons kv rest ih =>
    obtain ⟨a, v⟩ := kv
    by_cases hk : k = a
    · subst hk
      simp [Registry.get, List.lookup] at h
    · have h2 : (k == a) = false := by simpa using hk
      simp only [Registry.get, List.lookup_cons, h2] at h
      have h3 : (a != k) = true := by simpa using fun e => hk e.symm
      simp only [Registry.delete] at ih ⊢
      simp only [List.filter_cons, h3, if_true, ih h]

theorem Registry.delete_set (reg : Registry) (k v : String) :
    (reg.set k v).delete k = reg.delete k := by
  simp [Registry.set, Registry.delete, List.filter_cons, List.filter_filter]

theorem Registry.get_set_self (reg : Registry) (k v : String) : (reg.set k v).get k = some v := by
  simp [Registry.set, Registry.get, List.lookup_cons]


/-! ## Address discovery -/

theorem containsChars_iff (sub s : List Char) : containsChars sub s = true ↔ sub <:+: s := by
  induction s with
  | nil => simp [containsChars]
  | cons c cs ih =>
    simp only [containsChars, Bool.or_eq_true, ih, List.infix_cons_iff,
      List.isPrefixOf_iff_prefix]

theorem fieldsFrom_infix (s : List Char) :
    ∀ (cur t : List Char), t ∈ fieldsFrom cur s → t <:+: cur ++ s := by
  induction s with
  | nil =>
    intro cur t ht
    by_cases hc : cur = []
    · simp [fieldsFrom, hc] at ht
    · simp [fieldsFrom, hc] at ht
      subst ht
      simp
  | cons c cs ih =>
    intro cur t ht
    by_cases hsp : IsSpace c = true
    · by_cases hc : cur = []
      · simp only [fieldsFrom, hsp, hc, if_true] at ht
        obtain ⟨a, b, hab⟩ := ih [] t ht
        have hab2 : a ++ (t ++ b) = cs := by simpa using hab
        exact ⟨cur ++ c :: a, b, by simp [hab2]⟩
      · simp only [fieldsFrom, hsp, hc, if_true, if_false, List.mem_cons] at ht
        rcases ht with ht | ht
        · subst ht
          exact ⟨[], c :: cs, by simp⟩
        · obtain ⟨a, b, hab⟩ := ih [] t ht
          have hab2 : a ++ (t ++ b) = cs := by simpa using hab
          exact ⟨cur ++ c :: a, b, by simp [hab2]⟩
    · simp only [fieldsFrom, hsp] at ht
      have := ih (cur ++ [c]) t ht
      simpa using this

theorem fieldsFrom_noSpace (s : List Char) :
    ∀ (cur t : List Char), (∀ x ∈ cur, IsSpace x = false) → t ∈ fieldsFrom cur s →
      ∀ x ∈ t, IsSpace x = false := by
  induction s with
  | nil =>
    intro cur t hcur ht
    by_cases hc : cur = []
    · simp [fieldsFrom, hc] at ht
    · simp [fieldsFrom, hc] at ht
      subst ht
      exact hcur
  | cons c cs ih =>
    intro cur t hcur ht
    by_cases hsp : IsSpace c = true
    · by_cases hc : cur = []
      · simp only [fieldsFrom, hsp, hc, if_true] at ht
        exact ih [] t (by simp) ht
      · simp only [fieldsFrom, hsp, hc, if_true, if_false, List.mem_cons] at ht
        rcases ht with ht | ht
        · subst ht
          exact hcur
        · exact ih [] t (by simp) ht
    · simp only [fieldsFrom, hsp] at ht
      refine ih (cur ++ [c]) t ?_ ht
      intro x hx
      rcases List.mem_append.1 hx with h | h
      · exact hcur x h
      · have : x = c := by simpa using h
        subst this
        simpa using hsp

theorem dropWhile_noSpace (l : List Char) (h : ∀ x ∈ l, IsSpace x = false) :
    l.dropWhile IsSpace = l := by
  cases l with
  | nil => rfl
  | cons a as => simp [List.dropWhile, h a (by simp)]

/-- `strings.TrimSpace` leaves a part returned by `strings.Fields` as it is. -/
theorem TrimSpace_field (line part : String) (h : part ∈ Fields line) : TrimSpace part = part := by
  obtain ⟨t, ht, rfl⟩ := List.mem_map.1 h
  have hns := fieldsFrom_noSpace line.data [] t (by simp) ht
  have h1 : t.dropWhile IsSpace = t := dropWhile_noSpace t hns
  have h2 : t.reverse.dropWhile IsSpace = t.reverse :=
    dropWhile_noSpace _ (fun x hx => hns x (List.mem_reverse.1 hx))
  simp [TrimSpace, h1, h2]

/-- A part of a line that begins with `pre` makes the line contain `pre`. -/
theorem Contains_of_field (line part pre : String) (h : part ∈ Fields line)
    (hp : HasPrefix part pre = true) : Contains line pre = true := by
  obtain ⟨t, ht, rfl⟩ := List.mem_map.1 h
  have hin : t <:+: line.data := by simpa using fieldsFrom_infix line.data [] t ht
  have hpre : pre.data <+: t := List.isPrefixOf_iff_prefix.1 hp
  exact (containsChars_iff _ _).2 (hpre.isInfix.trans hin)

/-- The guard on the line never hides a part with a scheme. -/
theorem Contains_of_hasScheme (line part : String) (h : part ∈ Fields line)
    (hp : hasScheme part = true) :
    (Contains line "http://" || Contains line "https://") = true := by
  simp only [hasScheme, Bool.or_eq_true] at hp
  rcases hp with hp | hp
  · simp [Contains_of_field line part _ h hp]
  · simp [Contains_of_field line part _ h hp]

theorem scanParts_eq (line : String) :
    ∀ parts : List String, (∀ p ∈ parts, p ∈ Fields line) →
      scanParts parts = (parts.find? hasScheme).map (fun p => { url := p, err := none }) := by
  intro parts
  induction parts with
  | nil => intro _; rfl
  | cons p ps ih =>
    intro h
    by_cases hp : hasScheme p = true
    · simp [scanParts, hp, List.find?, TrimSpace_field line p (h p (by simp))]
    · have hp2 : hasScheme p = false := by simpa using hp
      simp [scanParts, hp2, List.find?, ih (fun q hq => h q (by simp [hq]))]

theorem firstAddressToken_cons (line : String) (lines : List String) :
    firstAddressToken (line :: lines) =
      match (Fields line).find? hasScheme with
      | some tok => some tok
      | none => firstAddressToken lines := by
  simp only [firstAddressToken, List.map_cons, List.flatten_cons, List.find?_append]
  cases (Fields line).find? hasScheme <;> rfl

/-- What the scanning goroutine sends: the first token with a scheme, in
stream order; without one, the scanner's error if the scan stopped on one, and
nothing otherwise. -/
theorem scanOutput_eq (ending : ScanEnd) (lines : List String) :
    scanOutput lines ending =
      match firstAddressToken lines with
      | some tok => some { url := tok, err := none }
      | none =>
        match ending with
        | ScanEnd.failed e => some { url := "", err := some e }
        | _ => none := by
  induction lines with
  | nil => cases ending <;> rfl
  | cons line rest ih =>
    rw [firstAddressToken_cons]
    have hparts := scanParts_eq line (Fields line) (fun _ h => h)
    cases hf : (Fields line).find? hasScheme with
    | some tok =>
      have hmem : tok ∈ Fields line := List.mem_of_find?_eq_some hf
      have hsch : hasScheme tok = true := List.find?_some hf
      have hguard := Contains_of_hasScheme line tok hmem hsch
      rw [hf] at hparts
      simp only [scanOutput, hguard, if_true, hparts, Option.map]
    | none =>
      rw [hf] at hparts
      simp only [scanOutput, hparts, Option.map, ih]
      split <;> rfl

/-- The result of `waitForServerURL` on every output. -/
theorem waitForServerURL_eq (out : Output) :
    waitForServerURL out =
      match firstAddressToken out.lines with
      | some tok => (tok, none)
      | none =>
        match out.ending with
        | ScanEnd.failed e => ("", some e)
        | _ => ("", some timeoutError) := by
  unfold waitForServerURL selectCase
  rw [scanOutput_eq]
  cases firstAddressToken out.lines with
  | some tok => rfl
  | none => cases out.ending <;> rfl

theorem firstAddressToken_none (lines : List String)
    (h : ∀ l ∈ lines, ∀ part ∈ Fields l, hasScheme part = false) :
    firstAddressToken lines = none := by
  unfold firstAddressToken
  rw [List.find?_eq_none]
  intro part hpart
  obtain ⟨parts, hparts, hin⟩ := List.mem_flatten.1 hpart
  obtain ⟨l, hl, rfl⟩ := List.mem_map.1 hparts
  simp [h l hl part hin]

theorem firstAddressToken_append (pre post : List String) (line tok : String)
    (hpre : ∀ l ∈ pre, ∀ part ∈ Fields l, hasScheme part = false)
    (hline : (Fields line).find? hasScheme = some tok) :
    firstAddressToken (pre ++ line :: post) = some tok := by
  induction pre with
  | nil => simp [firstAddressToken_cons, hline]
  | cons l ls ih =>
    have hl : (Fields l).find? hasScheme = none := by
      rw [List.find?_eq_none]
      intro part hpart
      simp [hpre l (by simp) part hpart]
    have := ih (fun m hm => hpre m (by simp [hm]))
    simp [firstAddressToken_cons, hl, this]

theorem splitLines_ne_nil (t : List Char) : splitLines t ≠ [] := by
  cases t with
  | nil => simp [splitLines]
  | cons c cs =>
    unfold splitLines
    split
    · simp
    · split <;> simp

theorem splitLines_line (l t : List Char) (h : '\n' ∉ l) :
    splitLines (l ++ '\n' :: t) = l :: splitLines t := by
  induction l with
  | nil => simp [splitLines]
  | cons c cs ih =>
    have hc : c ≠ '\n' := fun e => h (by simp [e])
    have hcs : '\n' ∉ cs := fun e => h (by simp [e])
    have hi := ih hcs
    simp only [List.cons_append, splitLines, hc, if_false]
    change (match splitLines (cs ++ '\n' :: t) with
      | [] => [[c]]
      | l :: ls => (c :: l) :: ls) = (c :: cs) :: splitLines t
    rw [hi]

theorem scanPieces_tooLong (closing : ScanEnd) (piece : List Char) (rest : List (List Char))
    (h : MaxScanTokenSize ≤ byteLen piece) :
    scanPieces closing (piece :: rest) = ([], ScanEnd.failed ErrTooLong) := by
  cases rest with
  | nil => simp only [scanPieces, h, if_true]
  | cons next more => simp only [scanPieces, h, if_true]

theorem scanPieces_line (closing : ScanEnd) (piece : List Char) (rest : List (List Char))
    (hrest : rest ≠ []) (h : byteLen piece < MaxScanTokenSize) :
    (scanPieces closing (piece :: rest)).1 =
      String.mk (dropCR piece) :: (scanPieces closing rest).1 := by
  cases rest with
  | nil => exact absurd rfl hrest
  | cons next more =>
    have h2 : ¬ MaxScanTokenSize ≤ byteLen piece := Nat.not_le.2 h
    simp only [scanPieces, h2, if_false]

theorem withNewlines_data (l : String) (ls : List String) :
    (withNewlines (l :: ls)).data = l.data ++ '\n' :: (withNewlines ls).data := by
  simp [withNewlines, String.data_append]

/-- The scanner delivers lines that end in a line feed and stay below the
token limit, each without its line end, whatever follows them. -/
theorem scanPieces_withNewlines (closing : ScanEnd) (t : List Char) (raw : List String)
    (hsize : ∀ l ∈ raw, '\n' ∉ l.data ∧ byteLen l.data < MaxScanTokenSize) :
    (scanPieces closing (splitLines ((withNewlines raw).data ++ t))).1 =
      raw.map (fun l => String.mk (dropCR l.data)) ++
        (scanPieces closing (splitLines t)).1 := by
  induction raw with
  | nil => simp [withNewlines]
  | cons l ls ih =>
    have hl := hsize l (by simp)
    rw [withNewlines_data, List.append_assoc, List.cons_append, splitLines_line _ _ hl.1,
      scanPieces_line closing _ _ (splitLines_ne_nil _) hl.2,
      ih (fun m hm => hsize m (by simp [hm]))]
    simp

theorem byteLen_longLine : byteLen longLine.data = 65536 := by
  have h : Char.utf8Size (Char.ofNat 120) = 1 := by decide
  simp only [longLine, byteLen, List.map_replicate, List.sum_replicate, h, smul_eq_mul, mul_one]

theorem longLine_no_newline : '\n' ∉ longLine.data := by
  intro h
  have h2 := (List.mem_replicate.1 h).2
  exact absurd h2 (by decide)

theorem longLine_no_address (part : String) (hp : part ∈ Fields longLine) :
    hasScheme part = false := by
  cases hs : hasScheme part with
  | false => rfl
  | true =>
    exfalso
    have hx : ∀ pre : String, Char.ofNat 104 ∈ pre.data → HasPrefix part pre = true → False := by
      intro pre hmem hpre
      have hc := Contains_of_field longLine part pre hp hpre
      have hin : pre.data <:+: longLine.data := (containsChars_iff _ _).1 hc
      have hmem2 : Char.ofNat 104 ∈ longLine.data := hin.subset hmem
      exact absurd (List.mem_replicate.1 hmem2).2 (by decide)
    simp only [hasScheme, Bool.or_eq_true] at hs
    rcases hs with hs | hs
    · exact hx "http://" (by decide) hs
    · exact hx "https://" (by decide) hs

/-- C3, as stated, fails: the output is one line without an address token
followed by the line that announces `http://127.0.0.1:53211`, but the first
line has 65536 bytes, the scanner stops on it with `ErrTooLong`, and
`waitForServerURL` returns that error and no address. -/
theorem waitForServerURL_overlong_line_no_address :
    overlongStream = longLine ++ "\n" ++ (announcement ++ "\n" ++ "") ∧
    (∀ part ∈ Fields longLine, hasScheme part = false) ∧
    (Fields announcement).find? hasScheme = some "http://127.0.0.1:53211" ∧
    waitForServerURL (scanStream overlongStream "" ScanEnd.eof) = ("", some ErrTooLong) := by
  refine ⟨rfl, longLine_no_address, by decide, ?_⟩
  have hd : overlongStream.data ++ "".data =
      longLine.data ++ '\n' :: ((withNewlines [announcement]).data ++ "".data) := by
    rw [overlongStream, withNewlines_data, List.append_assoc, List.cons_append]
  have hlong : MaxScanTokenSize ≤ byteLen longLine.data := by
    rw [byteLen_longLine]
    decide
  have hrun : scanStream overlongStream "" ScanEnd.eof =
      { lines := [], ending := ScanEnd.failed ErrTooLong } := by
    simp only [scanStream]
    rw [hd, splitLines_line _ _ longLine_no_newline, scanPieces_tooLong _ _ _ hlong]
  rw [hrun]
  rfl

/-- C3 (amended): when the output (stdout, then stderr) begins with any number
of lines that end in a line feed, stay below the scanner's token limit and, as
delivered, have no token that begins with `http://` or `https://`, followed by
such a line whose first token with a scheme is `tok`, then `waitForServerURL`
returns `tok` with no error, whatever follows that line and however the output
ends. On the lines the scanner delivers, the result is the first token with a
scheme in stream order, when there is one. -/
theorem waitForServerURL_first_address (stdout stderr rest : String) (closing : ScanEnd)
    (raw : List String) (line tok : String)
    (hstream : stdout ++ stderr = withNewlines (raw ++ [line]) ++ rest)
    (hsize : ∀ l ∈ raw ++ [line], '\n' ∉ l.data ∧ byteLen l.data < MaxScanTokenSize)
    (hpre : ∀ l ∈ raw, ∀ part ∈ Fields (String.mk (dropCR l.data)), hasScheme part = false)
    (hline : (Fields (String.mk (dropCR line.data))).find? hasScheme = some tok) :
    waitForServerURL (scanStream stdout stderr closing) = (tok, none) ∧
    (∀ (pre post : List String) (delivered first : String) (ending : ScanEnd),
      (∀ l ∈ pre, ∀ part ∈ Fields l, hasScheme part = false) →
      (Fields delivered).find? hasScheme = some first →
      waitForServerURL { lines := pre ++ delivered :: post, ending := ending } =
        (first, none)) ∧
    (∀ (out : Output) (first : String), firstAddressToken out.lines = some first →
      waitForServerURL out = (first, none)) := by
  refine ⟨?_, ?_, ?_⟩
  · have hd : stdout.data ++ stderr.data = (withNewlines (raw ++ [line])).data ++ rest.data := by
      rw [← String.data_append, hstream, String.data_append]
    have hlines : (scanStream stdout stderr closing).lines =
        raw.map (fun l => String.mk (dropCR l.data)) ++
          String.mk (dropCR line.data) :: (scanPieces closing (splitLines rest.data)).1 := by
      simp only [scanStream]
      rw [hd, scanPieces_withNewlines closing _ _ hsize]
      simp
    have hfirst : firstAddressToken (scanStream stdout stderr closing).lines = some tok := by
      rw [hlines]
      refine firstAddressToken_append _ _ _ tok ?_ hline
      intro l hl part hpart
      obtain ⟨l0, hl0, rfl⟩ := List.mem_map.1 hl
      exact hpre l0 hl0 part hpart
    rw [waitForServerURL_eq, hfirst]
  · intro pre post delivered first ending hp hl
    rw [waitForServerURL_eq]
    simp only [firstAddressToken_append pre post delivered first hp hl]
  · intro out first h
    rw [waitForServerURL_eq, h]

/-- C3 (amended) on two lines without an address and the announcement on
stdout, later output on stderr, and a failed read at the end. -/
theorem waitForServerURL_first_address_witness :
    waitForServerURL
        (scanStream
          "starting opencode\ndocs:http://example.invalid\nopencode server listening on http://127.0.0.1:53211\n"
          "see https://later.invalid" (ScanEnd.failed "read error")) =
      ("http://127.0.0.1:53211", none) :=
  (waitForServerURL_first_address
    "starting opencode\ndocs:http://example.invalid\nopencode server listening on http://127.0.0.1:53211\n"
    "see https://later.invalid" "see https://later.invalid" (ScanEnd.failed "read error")
    ["starting opencode", "docs:http://example.invalid"]
    "opencode server listening on http://127.0.0.1:53211" "http://127.0.0.1:53211"
    (by decide) (by decide) (by decide) (by decide)).1

/-- C9, as stated, fails: on an output with no address token whose scan stops
on a scanner error, the goroutine sends that error, so the receive case of the
`select` runs, not the timer: the result is the scanner's error, not the
timeout error. -/
theorem waitForServerURL_scanner_error_not_timeout :
    (∀ l ∈ ["starting opencode"], ∀ part ∈ Fields l, hasScheme part = false) ∧
    selectCase { lines := ["starting opencode"],
                 ending := ScanEnd.failed "bufio.Scanner: token too long" } =
      Selected.received { url := "", err := some "bufio.Scanner: token too long" } ∧
    waitForServerURL { lines := ["starting opencode"],
                       ending := ScanEnd.failed "bufio.Scanner: token too long" } =
      ("", some "bufio.Scanner: token too long") ∧
    waitForServerURL { lines := ["starting opencode"],
                       ending := ScanEnd.failed "bufio.Scanner: token too long" } ≠
      ("", some timeoutError) := by
  decide

/-- C9 (amended): on an output in which no line has a token that begins with
`http://` or `https://`, `waitForServerURL` never returns an address; when the
scan does not stop on a scanner error (end of input, also at once, or no more
output in time) the timer case runs and the result is the timeout error; when
the scan stops on a scanner error the result is that error, through the
receive case. -/
theorem waitForServerURL_no_address (out : Output)
    (hno : ∀ l ∈ out.lines, ∀ part ∈ Fields l, hasScheme part = false) :
    (waitForServerURL out).1 = "" ∧
    ((∀ e, out.ending ≠ ScanEnd.failed e) →
      selectCase out = Selected.timerFired ∧
      waitForServerURL out = ("", some timeoutError)) ∧
    (∀ e, out.ending = ScanEnd.failed e →
      selectCase out = Selected.received { url := "", err := some e } ∧
      waitForServerURL out = ("", some e)) := by
  have hnone := firstAddressToken_none out.lines hno
  have hscan := scanOutput_eq out.ending out.lines
  rw [hnone] at hscan
  have hwait := waitForServerURL_eq out
  rw [hnone] at hwait
  refine ⟨?_, ?_, ?_⟩
  · rw [hwait]
    cases out.ending <;> rfl
  · intro hne
    unfold selectCase
    rw [hwait, hscan]
    cases he : out.ending with
    | eof => exact ⟨rfl, rfl⟩
    | pending => exact ⟨rfl, rfl⟩
    | failed e => exact absurd he (hne e)
  · intro e he
    unfold selectCase
    rw [hwait, hscan, he]
    exact ⟨rfl, rfl⟩

/-- C9 (amended) on a process that exits at once without output. -/
theorem waitForServerURL_no_address_witness :
    selectCase { lines := [], ending := ScanEnd.eof } = Selected.timerFired ∧
    waitForServerURL { lines := [], ending := ScanEnd.eof } = ("", some timeoutError) :=
  (waitForServerURL_no_address { lines := [], ending := ScanEnd.eof } (by decide)).2.1
    (fun _ h => ScanEnd.noConfusion h)

/-! ## `handleOpenCodeSession` -/

theorem started_discovery_failed (b : Backend) (inbound : List Frame) (reg : Registry)
    (dir : String) (h : (waitForServerURL b.output).2 ≠ none) :
    started b inbound reg dir =
      { registry := reg, effects := [], sessionID := none, unread := inbound } := by
  unfold started
  rcases hw : waitForServerURL b.output with ⟨url, _ | e⟩
  · rw [hw] at h; exact absurd rfl h
  · rfl

theorem started_new_failed (b : Backend) (inbound : List Frame) (reg : Registry)
    (dir : String) (e : String) (h : b.SessionNew = Call.err e) :
    started b inbound reg dir =
      { registry := reg, effects := [], sessionID := none, unread := inbound } := by
  unfold started
  rcases hw : waitForServerURL b.output with ⟨url, _ | e⟩
  · simp only [h]
  · rfl

theorem started_share_failed (b : Backend) (inbound : List Frame) (reg : Registry)
    (dir : String) (e : String) (h : b.SessionShare = Call.err e) :
    (started b inbound reg dir).registry = reg ∧ (started b inbound reg dir).effects = [] := by
  unfold started
  rcases hw : waitForServerURL b.output with ⟨url, _ | e⟩
  · cases hn : b.SessionNew with
    | err e2 => exact ⟨rfl, rfl⟩
    | ok sid => simp [h]
  · exact ⟨rfl, rfl⟩

/-- The run after a successful start when discovery, session creation and
sharing all succeed. -/
theorem started_ok (b : Backend) (inbound : List Frame) (reg : Registry)
    (dir url sid share : String) (hw : waitForServerURL b.output = (url, none))
    (hn : b.SessionNew = Call.ok sid) (hs : b.SessionShare = Call.ok share) :
    started b inbound reg dir =
      { registry := reg.delete sid
        effects := (Effect.sleep 2 :: probeShare b.shareReachable share 5 5 0) ++
          (Effect.set sid url :: (announce b inbound (serverInfo b dir url sid share)).1 ++
            [Effect.delete sid])
        sessionID := some sid
        unread := (announce b inbound (serverInfo b dir url sid share)).2 } := by
  unfold started
  simp only [hw, hn, hs, registered, serverInfo, Registry.delete_set]

/-- Every run after a successful start is one of two kinds: nothing done and
the registry untouched, or a registration that is undone at the end. -/
theorem started_cases (b : Backend) (inbound : List Frame) (reg : Registry) (dir : String) :
    ((started b inbound reg dir).registry = reg ∧ (started b inbound reg dir).effects = []) ∨
    ∃ url sid share,
      waitForServerURL b.output = (url, none) ∧ b.SessionNew = Call.ok sid ∧
      b.SessionShare = Call.ok share ∧
      started b inbound reg dir =
        { registry := reg.delete sid
          effects := (Effect.sleep 2 :: probeShare b.shareReachable share 5 5 0) ++
            (Effect.set sid url :: (announce b inbound (serverInfo b dir url sid share)).1 ++
              [Effect.delete sid])
          sessionID := some sid
          unread := (announce b inbound (serverInfo b dir url sid share)).2 } := by
  rcases hw : waitForServerURL b.output with ⟨url, _ | e⟩
  · cases hn : b.SessionNew with
    | err e2 =>
      left
      rw [started_new_failed b inbound reg dir e2 hn]
      exact ⟨rfl, rfl⟩
    | ok sid =>
      cases hs : b.SessionShare with
      | err e3 => exact Or.inl (started_share_failed b inbound reg dir e3 hs)
      | ok share => exact Or.inr ⟨url, sid, share, rfl, rfl, rfl, started_ok b inbound reg dir url sid share hw hn hs⟩
  · left
    rw [started_discovery_failed b inbound reg dir (by rw [hw]; simp)]
    exact ⟨rfl, rfl⟩

theorem probeShare_effects (reachable : Nat → Bool) (url : String) (m : Nat) :
    ∀ (n i : Nat) (e : Effect), e ∈ probeShare reachable url m n i →
      e = Effect.probe url ∨ e = Effect.sleep 1 := by
  intro n
  induction n with
  | zero => intro i e h; simp [probeShare] at h
  | succ n ih =>
    intro i e h
    unfold probeShare at h
    split at h
    · simp at h; exact Or.inl h
    · split at h
      · simp only [List.mem_cons] at h
        rcases h with h | h | h
        · exact Or.inl h
        · exact Or.inr h
        · exact ih _ e h
      · simp only [List.mem_cons] at h
        rcases h with h | h
        · exact Or.inl h
        · exact ih _ e h

theorem announce_effects (b : Backend) (inbound : List Frame) (info : ServerInfo) (e : Effect)
    (h : e ∈ (announce b inbound info).1) : e = Effect.send (Sent.serverReady info) := by
  unfold announce at h
  split at h
  · simp at h
  · split at h
    · simp at h
    · simpa using h

/-- C4: when the process cannot be started, discovery fails, session creation
fails or sharing fails, `handleOpenCodeSession` returns with the registry it
was given, and all it did was to cancel, or to start the process, cancel and
wait: no registry write at any point, and no message to the client. -/
theorem handleOpenCodeSession_failure_leaves_registry (b : Backend) (inbound : List Frame)
    (reg : Registry) (dir : String)
    (hfail : b.StdoutPipe = false ∨ b.StderrPipe = false ∨ b.Start = false ∨
      (waitForServerURL b.output).2 ≠ none ∨ (∃ e, b.SessionNew = Call.err e) ∨
      (∃ e, b.SessionShare = Call.err e)) :
    (handleOpenCodeSession b inbound reg dir).registry = reg ∧
    ((handleOpenCodeSession b inbound reg dir).effects = [Effect.cancel] ∨
      (handleOpenCodeSession b inbound reg dir).effects =
        [Effect.start dir, Effect.cancel, Effect.wait, Effect.cancel]) ∧
    (∀ e ∈ (handleOpenCodeSession b inbound reg dir).effects,
      (∀ sid url, e ≠ Effect.set sid url) ∧ (∀ msg, e ≠ Effect.send msg)) := by
  have shape : (handleOpenCodeSession b inbound reg dir).registry = reg ∧
      ((handleOpenCodeSession b inbound reg dir).effects = [Effect.cancel] ∨
        (handleOpenCodeSession b inbound reg dir).effects =
          [Effect.start dir, Effect.cancel, Effect.wait, Effect.cancel]) := by
    by_cases h1 : b.StdoutPipe = true
    · by_cases h2 : b.StderrPipe = true
      · by_cases h3 : b.Start = true
        · have hs : (started b inbound reg dir).registry = reg ∧
              (started b inbound reg dir).effects = [] := by
            rcases hfail with h | h | h | h | ⟨e, h⟩ | ⟨e, h⟩
            · rw [h1] at h; cases h
            · rw [h2] at h; cases h
            · rw [h3] at h; cases h
            · rw [started_discovery_failed b inbound reg dir h]; exact ⟨rfl, rfl⟩
            · rw [started_new_failed b inbound reg dir e h]; exact ⟨rfl, rfl⟩
            · exact started_share_failed b inbound reg dir e h
          simp [handleOpenCodeSession, h1, h2, h3, hs.1, hs.2]
        · simp [handleOpenCodeSession, h1, h2, h3]
      · simp [handleOpenCodeSession, h1, h2]
    · simp [handleOpenCodeSession, h1]
  refine ⟨shape.1, shape.2, ?_⟩
  intro e he
  rcases shape.2 with h | h
  · rw [h] at he
    simp only [List.mem_singleton] at he
    subst he
    exact ⟨fun _ _ h => Effect.noConfusion h, fun _ h => Effect.noConfusion h⟩
  · rw [h] at he
    simp only [List.mem_cons, List.mem_singleton, List.not_mem_nil, or_false] at he
    rcases he with he | he | he | he <;> subst he <;>
      exact ⟨fun _ _ h => Effect.noConfusion h, fun _ h => Effect.noConfusion h⟩

/-- C4 on the failure scenario: the process exits at once without an address
line. -/
theorem handleOpenCodeSession_failure_leaves_registry_witness :
    (handleOpenCodeSession silentBackend [] sampleRegistry "/home/u/proj").registry =
      sampleRegistry ∧
    (handleOpenCodeSession silentBackend [] sampleRegistry "/home/u/proj").effects =
      [Effect.start "/home/u/proj", Effect.cancel, Effect.wait, Effect.cancel] :=
  have h := handleOpenCodeSession_failure_leaves_registry silentBackend [] sampleRegistry
    "/home/u/proj" (Or.inr (Or.inr (Or.inr (Or.inl (by decide)))))
  ⟨h.1, by decide⟩

/-- C5: a run of `handleOpenCodeSession` that started a process ends, on every
path, with `cancel()` and `cmd.Wait()`. If it wrote its session id to the
registry, the deferred `delete` comes right before them and the registry it
leaves has no entry for that id; if it did not, the registry is the one it was
given, so an id absent before is absent after. Deleting an absent id leaves
the registry as it is. -/
theorem handleOpenCodeSession_teardown (b : Backend) (inbound : List Frame) (reg : Registry)
    (dir : String) (h1 : b.StdoutPipe = true) (h2 : b.StderrPipe = true)
    (h3 : b.Start = true) :
    (∃ mid, (handleOpenCodeSession b inbound reg dir).effects =
      Effect.start dir :: mid ++ [Effect.cancel, Effect.wait, Effect.cancel]) ∧
    (∀ sid, (handleOpenCodeSession b inbound reg dir).sessionID = some sid →
      reg.get sid = none →
      (handleOpenCodeSession b inbound reg dir).registry.get sid = none) ∧
    (∀ sid url, Effect.set sid url ∈ (handleOpenCodeSession b inbound reg dir).effects →
      (handleOpenCodeSession b inbound reg dir).sessionID = some sid ∧
      (handleOpenCodeSession b inbound reg dir).registry.get sid = none ∧
      ∃ pre, (handleOpenCodeSession b inbound reg dir).effects =
        pre ++ [Effect.delete sid, Effect.cancel, Effect.wait, Effect.cancel]) ∧
    ((∀ sid url, Effect.set sid url ∉ (handleOpenCodeSession b inbound reg dir).effects) →
      (handleOpenCodeSession b inbound reg dir).registry = reg) ∧
    (∀ (r : Registry) (sid : String), r.get sid = none → r.delete sid = r) := by
  have hrun : handleOpenCodeSession b inbound reg dir =
      { started b inbound reg dir with
        effects := Effect.start dir :: (started b inbound reg dir).effects ++
          [Effect.cancel, Effect.wait, Effect.cancel] } := by
    simp [handleOpenCodeSession, h1, h2, h3]
  rw [hrun]
  refine ⟨⟨_, rfl⟩, ?_, ?_, ?_, fun r sid h => Registry.delete_absent r sid h⟩
  · intro sid hsid habs
    rcases started_cases b inbound reg dir with ⟨hr, _⟩ | ⟨url, sid2, share, _, _, _, heq⟩
    · simp only [hr]; exact habs
    · rw [heq] at hsid ⊢
      simp only [Option.some.injEq] at hsid
      subst hsid
      exact Registry.get_delete_self reg _
  · intro sid url hmem
    rcases started_cases b inbound reg dir with ⟨_, he⟩ | ⟨url2, sid2, share, _, _, _, heq⟩
    · simp [he] at hmem
    · rw [heq] at hmem ⊢
      have hsid : sid = sid2 := by
        simp only [List.mem_cons, List.mem_append, List.mem_singleton, List.not_mem_nil,
          or_false, Effect.set.injEq, false_or, or_false, reduceCtorEq] at hmem
        rcases hmem with h | h | h
        · rcases probeShare_effects _ _ _ _ _ _ h with h | h <;> cases h
        · exact h.1
        · cases announce_effects _ _ _ _ h
      subst hsid
      refine ⟨rfl, Registry.get_delete_self reg _, ?_⟩
      exact ⟨Effect.start dir :: (Effect.sleep 2 :: probeShare b.shareReachable share 5 5 0) ++
        (Effect.set sid url2 :: (announce b inbound (serverInfo b dir url2 sid share)).1),
        by simp⟩
  · intro hno
    rcases started_cases b inbound reg dir with ⟨hr, _⟩ | ⟨url, sid, share, _, _, _, heq⟩
    · exact hr
    · exact absurd (by rw [heq]; simp) (hno sid url)

/-- C5 on the end-to-end scenario with a client that disconnects after
`serverReady`: the entry for `ses_123` is written and removed, then the
process is cancelled and waited for. -/
theorem handleOpenCodeSession_teardown_witness :
    (handleOpenCodeSession sampleBackend [] [] "/home/u/proj").sessionID = some "ses_123" ∧
    (handleOpenCodeSession sampleBackend [] [] "/home/u/proj").registry.get "ses_123" = none ∧
    ∃ pre, (handleOpenCodeSession sampleBackend [] [] "/home/u/proj").effects =
      pre ++ [Effect.delete "ses_123", Effect.cancel, Effect.wait, Effect.cancel] :=
  (handleOpenCodeSession_teardown sampleBackend [] [] "/home/u/proj" rfl rfl rfl).2.2.1
    "ses_123" "http://127.0.0.1:53211" (by decide)

/-! ## `getAgentsFromAPI` -/

/-- C6, as stated, fails: with one fetched agent `custom` and a configuration
that cannot be fetched, `getAgentsFromAPI` reports the empty string, not
`custom`, and `serverReady` carries the empty string. -/
theorem getAgentsFromAPI_config_unfetched_empty :
    getAgentsFromAPI (Call.ok { StatusCode := 200, decoded := Call.ok [customAgent] })
        (Call.err "connection refused") =
      ([customAgent], "", some "failed to get config: connection refused") ∧
    firstAgentName [customAgent] = "custom" ∧
    Effect.send (Sent.serverReady
      { URL := "http://127.0.0.1:53211", Directory := "/home/u/proj"
        ShareURL := "https://share.invalid/ses_123", SessionID := "ses_123"
        CurrentModel := "anthropic/model-a", CurrentAgent := ""
        Models := ["anthropic/model-a"], Agents := [customAgent] }) ∈
      (handleOpenCodeSession sampleBackend [] [] "/home/u/proj").effects := by
  decide

/-- C6 (amended): with the agent list fetched, the current agent is the first
of general, plan, build that is not disabled in the decoded configuration;
when all three are disabled, or the configuration payload cannot be decoded,
it is the name of the first fetched agent, or the empty string for an empty
list; when the configuration cannot be fetched it is the empty string, next to
an error. The value placed in `serverReady` is the one `getAgentsFromAPI`
reports. -/
theorem getAgentsFromAPI_currentAgent (agents : List Agent) (config : Call (Got AgentConfig)) :
    (getAgentsFromAPI (Call.ok { StatusCode := StatusOK, decoded := Call.ok agents })
        config).2.1 =
      (match config with
        | Call.ok { StatusCode := _, decoded := Call.ok cfg } =>
          (firstEnabledToggle cfg).getD (firstAgentName agents)
        | Call.ok { StatusCode := _, decoded := Call.err _ } => firstAgentName agents
        | Call.err _ => "") ∧
    (∀ e, config = Call.err e →
      (getAgentsFromAPI (Call.ok { StatusCode := StatusOK, decoded := Call.ok agents })
        config).2.2 = some ("failed to get config: " ++ e)) ∧
    (∀ (b : Backend) (dir url sid share : String),
      (serverInfo b dir url sid share).CurrentAgent =
        (getAgentsFromAPI b.agent b.config).2.1) := by
  refine ⟨?_, ?_, fun _ _ _ _ _ => rfl⟩
  · rcases config with e | ⟨status, e | cfg⟩
    · rfl
    · cases agents <;> simp [getAgentsFromAPI, firstAgentName]
    · rcases cfg with ⟨g, p, bd⟩
      cases agents <;> cases g <;> cases p <;> cases bd <;>
        simp [getAgentsFromAPI, firstAgentName, firstEnabledToggle]
  · intro e he
    subst he
    simp [getAgentsFromAPI]

/-- C6 (amended) with `general` disabled and `plan` enabled. -/
theorem getAgentsFromAPI_currentAgent_witness :
    (getAgentsFromAPI (Call.ok { StatusCode := StatusOK, decoded := Call.ok [customAgent] })
        (Call.ok { StatusCode := 200
                   decoded := Call.ok { General := true, Plan := false, Build := false } })).2.1 =
      "plan" :=
  (getAgentsFromAPI_currentAgent [customAgent]
    (Call.ok { StatusCode := 200
               decoded := Call.ok { General := true, Plan := false, Build := false } })).1

/-! ## The control channel -/

theorem announce_fst (b : Backend) (inbound inbound2 : List Frame) (info : ServerInfo) :
    (announce b inbound info).1 = (announce b inbound2 info).1 := by
  unfold announce
  split
  · rfl
  · split <;> rfl

/-- What `handleOpenCodeSession` does and leaves does not depend on the
messages the client sends afterwards. -/
theorem handleOpenCodeSession_inbound (b : Backend) (inbound inbound2 : List Frame)
    (reg : Registry) (dir : String) :
    (handleOpenCodeSession b inbound reg dir).effects =
      (handleOpenCodeSession b inbound2 reg dir).effects ∧
    (handleOpenCodeSession b inbound reg dir).registry =
      (handleOpenCodeSession b inbound2 reg dir).registry ∧
    (handleOpenCodeSession b inbound reg dir).sessionID =
      (handleOpenCodeSession b inbound2 reg dir).sessionID := by
  have hs : (started b inbound reg dir).effects = (started b inbound2 reg dir).effects ∧
      (started b inbound reg dir).registry = (started b inbound2 reg dir).registry ∧
      (started b inbound reg dir).sessionID = (started b inbound2 reg dir).sessionID := by
    rcases hw : waitForServerURL b.output with ⟨url, _ | e⟩
    · cases hn : b.SessionNew with
      | err e2 =>
        rw [started_new_failed b inbound reg dir e2 hn, started_new_failed b inbound2 reg dir e2 hn]
        exact ⟨rfl, rfl, rfl⟩
      | ok sid =>
        cases hsh : b.SessionShare with
        | err e3 =>
          unfold started
          simp only [hw, hn, hsh]
          exact ⟨trivial, trivial, trivial⟩
        | ok share =>
          rw [started_ok b inbound reg dir url sid share hw hn hsh,
            started_ok b inbound2 reg dir url sid share hw hn hsh]
          simp only [announce_fst b inbound inbound2]
          exact ⟨trivial, trivial, trivial⟩
    · have hf : (waitForServerURL b.output).2 ≠ none := by rw [hw]; simp
      rw [started_discovery_failed b inbound reg dir hf,
        started_discovery_failed b inbound2 reg dir hf]
      exact ⟨rfl, rfl, rfl⟩
  unfold handleOpenCodeSession
  split
  · exact ⟨rfl, rfl, rfl⟩
  · split
    · exact ⟨rfl, rfl, rfl⟩
    · split
      · exact ⟨rfl, rfl, rfl⟩
      · simp only [hs.1, hs.2.1, hs.2.2]
        exact ⟨trivial, trivial, trivial⟩

theorem launches_append (a c : List Effect) : launches (a ++ c) = launches a + launches c := by
  simp [launches, List.filter_append]

theorem launches_probeShare (reachable : Nat → Bool) (url : String) (m n i : Nat) :
    launches (probeShare reachable url m n i) = 0 := by
  unfold launches
  rw [List.length_eq_zero, List.filter_eq_nil_iff]
  intro e he
  rcases probeShare_effects reachable url m n i e he with h | h <;> subst h <;> simp

theorem launches_announce (b : Backend) (inbound : List Frame) (info : ServerInfo) :
    launches (announce b inbound info).1 = 0 := by
  unfold launches
  rw [List.length_eq_zero, List.filter_eq_nil_iff]
  intro e he
  rw [announce_effects b inbound info e he]
  simp

theorem launches_started (b : Backend) (inbound : List Frame) (reg : Registry) (dir : String) :
    launches (started b inbound reg dir).effects = 0 := by
  rcases started_cases b inbound reg dir with ⟨_, he⟩ | ⟨url, sid, share, _, _, _, heq⟩
  · rw [he]; rfl
  · rw [heq]
    simp only [launches_append, List.cons_append]
    have h1 : ∀ l, launches (Effect.sleep 2 :: l) = launches l := fun l => by simp [launches]
    have h2 : ∀ l, launches (Effect.set sid url :: l) = launches l := fun l => by simp [launches]
    have h3 : launches [Effect.delete sid] = 0 := by simp [launches]
    rw [h1, launches_append, h2, launches_append, launches_probeShare, launches_announce, h3]

/-- One run of `handleOpenCodeSession` starts at most one process. -/
theorem launches_handleOpenCodeSession (b : Backend) (inbound : List Frame) (reg : Registry)
    (dir : String) : launches (handleOpenCodeSession b inbound reg dir).effects ≤ 1 := by
  unfold handleOpenCodeSession
  split
  · simp [launches]
  · split
    · simp [launches]
    · split
      · simp [launches]
      · have h1 : ∀ l, launches (Effect.start dir :: l) = launches l + 1 :=
          fun l => by simp [launches]
        have h2 : launches [Effect.cancel, Effect.wait, Effect.cancel] = 0 := by
          simp [launches]
        simp only [h1, launches_append, launches_started, h2]
        exact le_refl _

theorem awaitSelection_passedOver (b : Backend) (reg : Registry) (f : Frame)
    (rest : List Frame) (h : f.passedOver = true) :
    awaitSelection b reg (f :: rest) = awaitSelection b reg rest := by
  rcases f with e | _ | msg
  · simp [Frame.passedOver] at h
  · simp [Frame.passedOver] at h
  · rcases msg with ⟨typ, e | data⟩
    · by_cases ht : typ = "selectDirectory"
      · simp [awaitSelection, ReadJSON, ht]
      · simp [awaitSelection, ReadJSON, ht]
    · have ht : typ ≠ "selectDirectory" := by simpa [Frame.passedOver] using h
      simp [awaitSelection, ReadJSON, ht]

theorem awaitSelection_passedOver_all (b : Backend) (reg : Registry) (pre rest : List Frame)
    (h : ∀ f ∈ pre, f.passedOver = true) :
    awaitSelection b reg (pre ++ rest) = awaitSelection b reg rest := by
  induction pre with
  | nil => rfl
  | cons f fs ih =>
    rw [List.cons_append, awaitSelection_passedOver b reg f _ (h f (by simp))]
    exact ih (fun g hg => h g (by simp [hg]))

theorem launches_awaitSelection (b : Backend) (reg : Registry) (frames : List Frame) :
    launches (awaitSelection b reg frames).effects ≤ 1 := by
  induction frames with
  | nil => simp [awaitSelection, launches]
  | cons f rest ih =>
    rcases f with e | _ | msg
    · simp [awaitSelection, ReadJSON, launches]
    · simp [awaitSelection, ReadJSON, launches]
    · rcases msg with ⟨typ, e | data⟩
      · rw [awaitSelection_passedOver b reg _ rest (by simp [Frame.passedOver])]
        exact ih
      · by_cases ht : typ = "selectDirectory"
        · simp only [awaitSelection, ReadJSON, ht, if_true]
          exact launches_handleOpenCodeSession b rest reg data.Path
        · rw [awaitSelection_passedOver b reg _ rest (by simp [Frame.passedOver, ht])]
          exact ih

theorem launches_handleWebSocket (b : Backend) (conn : Conn) (reg : Registry) :
    launches (handleWebSocket b conn reg).effects ≤ 1 := by
  unfold handleWebSocket
  split
  · simp [launches]
  · split
    · simp [launches]
    · rename_i directories _
      have h1 : ∀ l, launches (Effect.send (Sent.directoryList directories) :: l) = launches l :=
        fun l => by simp [launches]
      have h2 : launches [Effect.close] = 0 := by simp [launches]
      simp only [h1, launches_append, h2]
      exact launches_awaitSelection b reg conn.inbound

/-- C7, as stated, fails: a frame that does not decode as `{type, data}` makes
`conn.ReadJSON` fail, and the loop of `handleWebSocket` breaks: the handler
returns, the connection is closed, and the directory selection that follows is
never read. Had the frame been ignored, that selection would have started the
backend. -/
theorem handleWebSocket_malformed_envelope_closes :
    handleWebSocket sampleBackend (sampleConn [Frame.payload none, selectProj]) [] =
      { registry := []
        effects := [Effect.send (Sent.directoryList []), Effect.close]
        sessionID := none
        unread := [selectProj] } ∧
    Effect.start "/home/u/proj" ∈
      (handleWebSocket sampleBackend (sampleConn [selectProj]) []).effects := by
  decide

/-- C7 (amended): while a channel awaits a selection, a `selectDirectory`
message whose data cannot be decoded is passed over, and the handler goes on
with the next message as if it had not been received; a frame that does not
decode as `{type, data}` ends the loop with nothing done, the rest unread and
the connection closed; in the final loop of a session such a frame ends the
loop too, while every decodable envelope is dropped. No process is started by
either kind of message. -/
theorem handleWebSocket_malformed (b : Backend) (reg : Registry) (rest : List Frame)
    (directories : List DirectoryInfo) :
    (∀ e, awaitSelection b reg
        (Frame.payload (some { Typ := "selectDirectory", Data := Call.err e }) :: rest) =
      awaitSelection b reg rest) ∧
    awaitSelection b reg (Frame.payload none :: rest) =
      { registry := reg, effects := [], sessionID := none, unread := rest } ∧
    handleWebSocket b
        { Upgrade := true, sendDirectoryList := Call.ok directories
          inbound := Frame.payload none :: rest } reg =
      { registry := reg
        effects := [Effect.send (Sent.directoryList directories), Effect.close]
        sessionID := none
        unread := rest } ∧
    drain (Frame.payload none :: rest) = rest ∧
    (∀ msg, drain (Frame.payload (some msg) :: rest) = drain rest) := by
  refine ⟨fun e => ?_, rfl, rfl, rfl, fun _ => rfl⟩
  exact awaitSelection_passedOver b reg _ rest (by simp [Frame.passedOver])

/-- C10: messages that are envelopes of another type (or a `selectDirectory`
whose data does not decode) leave a channel that awaits a selection where it
is: after any sequence of them the handler behaves as if none had been
received, and if the connection ends there it has started nothing, written
nothing and sent nothing. The first `selectDirectory` with decodable data
launches the session for its path; what the session does and leaves does not
depend on the messages that follow, and a channel never starts more than one
process. -/
theorem handleWebSocket_first_selection_wins (b : Backend) (reg : Registry)
    (pre post : List Frame) (data : SelectDirectoryData)
    (hpre : ∀ f ∈ pre, f.passedOver = true) :
    (∀ rest, awaitSelection b reg (pre ++ rest) = awaitSelection b reg rest) ∧
    awaitSelection b reg pre =
      { registry := reg, effects := [], sessionID := none, unread := [] } ∧
    awaitSelection b reg
        (pre ++ Frame.payload (some { Typ := "selectDirectory", Data := Call.ok data }) ::
          post) =
      handleOpenCodeSession b post reg data.Path ∧
    (∀ later,
      (handleOpenCodeSession b later reg data.Path).effects =
        (handleOpenCodeSession b post reg data.Path).effects ∧
      (handleOpenCodeSession b later reg data.Path).registry =
        (handleOpenCodeSession b post reg data.Path).registry) ∧
    (∀ conn : Conn, launches (handleWebSocket b conn reg).effects ≤ 1) := by
  refine ⟨fun rest => awaitSelection_passedOver_all b reg pre rest hpre, ?_, ?_, ?_,
    fun conn => launches_handleWebSocket b conn reg⟩
  · have h := awaitSelection_passedOver_all b reg pre [] hpre
    rw [List.append_nil] at h
    rw [h]
    rfl
  · rw [awaitSelection_passedOver_all b reg pre _ hpre]
    simp [awaitSelection, ReadJSON]
  · intro later
    have h := handleOpenCodeSession_inbound b later post reg data.Path
    exact ⟨h.1, h.2.1⟩

/-- C10 on a channel that receives a ping, the selection of `/home/u/proj`,
and a second selection: the session is the one for `/home/u/proj`. -/
theorem handleWebSocket_first_selection_wins_witness :
    awaitSelection sampleBackend []
        ([Frame.payload (some { Typ := "ping", Data := Call.err "no data" })] ++
          Frame.payload (some { Typ := "selectDirectory"
                                Data := Call.ok { Path := "/home/u/proj" } }) ::
          [Frame.payload (some { Typ := "selectDirectory"
                                 Data := Call.ok { Path := "/home/u/other" } })]) =
      handleOpenCodeSession sampleBackend
        [Frame.payload (some { Typ := "selectDirectory"
                               Data := Call.ok { Path := "/home/u/other" } })]
        [] "/home/u/proj" :=
  (handleWebSocket_first_selection_wins sampleBackend []
    [Frame.payload (some { Typ := "ping", Data := Call.err "no data" })]
    [Frame.payload (some { Typ := "selectDirectory"
                           Data := Call.ok { Path := "/home/u/other" } })]
    { Path := "/home/u/proj" } (by decide)).2.2.1

/-! ## `handleDevProxy` -/

/-- C8, as stated, fails: a request that carries `Upgrade: h2c` takes the
buffered path. -/
theorem handleDevProxy_upgrade_header_buffered :
    List.lookup "Upgrade" [("Connection", ["Upgrade"]), ("Upgrade", ["h2c"])] = some ["h2c"] ∧
    handleDevProxy sampleClient sampleTunnel sampleRender sampleTarget
        { Method := "GET", Path := "/", RawQuery := ""
          Header := [("Connection", ["Upgrade"]), ("Upgrade", ["h2c"])], Body := "" } =
      DevHandled.buffered
        { sent := some { Method := "GET", URL := "http://localhost:5173/"
                         Header := [("Connection", ["Upgrade"]), ("Upgrade", ["h2c"])]
                         Body := "" }
          response := { StatusCode := 200, Header := [], Body := "ok" } } := by
  decide

/-- C8 (amended): the development handler sends a request through
`proxyWebSocket` exactly when the first value of its `Upgrade` header is the
string `websocket`, and through the buffered forward otherwise; so no request
whose `Upgrade` header is `websocket` takes the buffered path, and a request
without an `Upgrade` header always does. -/
theorem handleDevProxy_route (c : HTTPClient) (t : Tunnel) (render : URL → String)
    (target : URL) (r : Request) :
    ((∃ res, handleDevProxy c t render target r = DevHandled.tunnel res) ↔
      r.Header.Get "Upgrade" = "websocket") ∧
    ((∃ h, handleDevProxy c t render target r = DevHandled.buffered h) ↔
      r.Header.Get "Upgrade" ≠ "websocket") ∧
    (r.Header.Get "Upgrade" = "websocket" →
      handleDevProxy c t render target r = DevHandled.tunnel (proxyWebSocket t)) ∧
    (r.Header.lookup "Upgrade" = none →
      handleDevProxy c t render target r =
        DevHandled.buffered
          (forward c r (render { target with Path := r.Path, RawQuery := r.RawQuery }))) := by
  by_cases h : r.Header.Get "Upgrade" = "websocket"
  · have heq : handleDevProxy c t render target r = DevHandled.tunnel (proxyWebSocket t) := by
      simp only [handleDevProxy, h, if_true]
    refine ⟨⟨fun _ => h, fun _ => ⟨_, heq⟩⟩, ⟨?_, fun hn => absurd h hn⟩, fun _ => heq, ?_⟩
    · rintro ⟨x, hx⟩
      rw [heq] at hx
      cases hx
    · intro hn
      have hget : r.Header.Get "Upgrade" = "" := by simp only [Header.Get, hn]
      rw [hget] at h
      exact absurd h (by decide)
  · have heq : handleDevProxy c t render target r =
        DevHandled.buffered
          (forward c r (render { target with Path := r.Path, RawQuery := r.RawQuery })) := by
      simp only [handleDevProxy, h, if_false]
    refine ⟨⟨?_, fun hw => absurd hw h⟩, ⟨fun _ => h, fun _ => ⟨_, heq⟩⟩,
      fun hw => absurd hw h, fun _ => heq⟩
    rintro ⟨x, hx⟩
    rw [heq] at hx
    cases hx

/-- C8 (amended) on a websocket upgrade: it goes through the tunnel. -/
theorem handleDevProxy_route_witness :
    handleDevProxy sampleClient sampleTunnel sampleRender sampleTarget
        { Method := "GET", Path := "/hmr", RawQuery := ""
          Header := [("Connection", ["Upgrade"]), ("Upgrade", ["websocket"])], Body := "" } =
      DevHandled.tunnel Tunnelled.relayed :=
  (handleDevProxy_route sampleClient sampleTunnel sampleRender sampleTarget
    { Method := "GET", Path := "/hmr", RawQuery := ""
      Header := [("Connection", ["Upgrade"]), ("Upgrade", ["websocket"])], Body := "" }).2.2.1
    (by decide)

end Orca
